import Mathlib

/-
Verification of the AgentOrch execution-orchestration core.

Shallow embedding of:
  src/core/state/state.service.ts      (StateService: snapshots, mergeState)
  src/core/execution/execution.service.ts (ExecutionService: updateStatus,
                                           resume, replay, cancel)
  src/core/events/event.service.ts     (EventService: save, saveMany)
  src/core/queue/queue.service.ts      (QueueService.enqueue, BullMQ jobId)
  src/workers/agent.worker.ts          (createAgentWorker job handler)

The Prisma-backed database is modelled as explicit lists of rows kept in
insertion order.  Timestamps (new Date() / Date.now()) are passed in as a
Nat parameter; generated ids (uuidv4 / prisma cuid) are modelled as fresh
values (a counter for event ids, an explicit parameter for the replayed
execution id, assumed fresh in the theorems that need it).
-/

namespace AgentOrch

/-- JSON-ish values stored in metadata / state objects.  The merge logic in
the source never inspects values, only keys. -/
inductive JVal where
  | jnum (n : Int)
  | jstr (s : String)
  | jbool (b : Bool)
  | jnull
  | jstrs (l : List String)
  deriving DecidableEq

/-- A JS object: association list of fields, insertion order kept. -/
abbrev Obj := List (String × JVal)

/-- Property lookup on a JS object. -/
def Obj.get (o : Obj) (k : String) : Option JVal :=
  (o.find? (fun p => p.1 == k)).map Prod.snd

/-- JS object spread: result of the literal with the fields of a, then b;
fields of b win on key collision. -/
def spread (a b : Obj) : Obj :=
  a.filter (fun p => (Obj.get b p.1).isNone) ++ b

theorem find?_append_eq (l1 l2 : List α) (p : α → Bool) :
    (l1 ++ l2).find? p =
      match l1.find? p with
      | some a => some a
      | none => l2.find? p := by
  induction l1 with
  | nil => simp
  | cons x l ih =>
    by_cases hx : p x
    · simp [List.find?, hx]
    · simp only [List.cons_append, List.find?, Bool.not_eq_true] at *
      rw [hx]
      simpa [hx] using ih

theorem find?_filter_of_imp (l : List α) (p q : α → Bool)
    (h : ∀ x, p x = true → q x = true) :
    (l.filter q).find? p = l.find? p := by
  induction l with
  | nil => simp
  | cons x l ih =>
    by_cases hq : q x
    · by_cases hp : p x
      · simp [List.filter, hq, List.find?, hp]
      · simp only [Bool.not_eq_true] at hp
        simp [List.filter, hq, List.find?, hp, ih]
    · have hp : p x = false := by
        by_contra hc
        simp only [Bool.not_eq_false] at hc
        exact hq (h x hc)
      simp [List.filter, hq, List.find?, hp, ih]

theorem find?_filter_none (l : List α) (p q : α → Bool)
    (h : ∀ x, p x = true → q x = false) :
    (l.filter q).find? p = none := by
  induction l with
  | nil => simp
  | cons x l ih =>
    by_cases hq : q x
    · have hp : p x = false := by
        by_contra hc
        simp only [Bool.not_eq_false] at hc
        rw [h x hc] at hq
        exact Bool.false_ne_true hq
      simp [List.filter, hq, List.find?, hp, ih]
    · simp [List.filter, hq, ih]

theorem get_append (l1 l2 : Obj) (k : String) :
    Obj.get (l1 ++ l2) k =
      match Obj.get l1 k with
      | some v => some v
      | none => Obj.get l2 k := by
  unfold Obj.get
  rw [find?_append_eq]
  cases h : (l1.find? (fun p => p.1 == k)) <;> simp [h]

theorem get_filter_of_imp (l : Obj) (q : String × JVal → Bool) (k : String)
    (h : ∀ x : String × JVal, (x.1 == k) = true → q x = true) :
    Obj.get (l.filter q) k = Obj.get l k := by
  unfold Obj.get
  rw [find?_filter_of_imp _ _ _ h]

theorem get_filter_none (l : Obj) (q : String × JVal → Bool) (k : String)
    (h : ∀ x : String × JVal, (x.1 == k) = true → q x = false) :
    Obj.get (l.filter q) k = none := by
  unfold Obj.get
  rw [find?_filter_none _ _ _ h]
  rfl

/-- Lookup after a spread: the update object wins key-by-key. -/
theorem spread_get (a b : Obj) (k : String) :
    Obj.get (spread a b) k =
      match Obj.get b k with
      | some v => some v
      | none => Obj.get a k := by
  unfold spread
  rw [get_append]
  cases hb : Obj.get b k with
  | none =>
    have himp : ∀ x : String × JVal, (x.1 == k) = true →
        ((Obj.get b x.1).isNone) = true := by
      intro x hx
      have hk : x.1 = k := by simpa using hx
      simp [hk, hb]
    rw [get_filter_of_imp _ _ _ himp]
    simp only [hb]
    cases ha : Obj.get a k <;> simp [ha]
  | some pr =>
    have himp : ∀ x : String × JVal, (x.1 == k) = true →
        ((Obj.get b x.1).isNone) = false := by
      intro x hx
      have hk : x.1 = k := by simpa using hx
      simp [hk, hb]
    rw [get_filter_none _ _ _ himp]

/-- The accumulated RFQ state (src/shared/types/rfq.types.ts, RfqState).
Every field of the TS interface is optional; nested objects are modelled
as Obj since the merge in the source treats them as plain JS objects. -/
structure RfqState where
  parsedData : Option Obj := none
  missingFields : Option (List String) := none
  clarificationRequests : Option (List Obj) := none
  duplicateCheckResult : Option Obj := none
  priority : Option String := none
  complexity : Option String := none
  estimatedHours : Option Int := none
  mtoData : Option Obj := none
  quote : Option Obj := none
  deriving DecidableEq

/-- Deep-merge of one curated nested field:
`updates.f ? { ...currentState.f, ...updates.f } : currentState.f`. -/
def deepField (cur upd : Option Obj) : Option Obj :=
  match upd with
  | some u => some (spread (cur.getD []) u)
  | none => cur

/-- Top-level shallow merge of one field: the update wins when present. -/
def updOr (upd cur : Option α) : Option α :=
  match upd with
  | some v => some v
  | none => cur

/-- StateService.mergeState (state.service.ts, lines 505-522):
`{ ...currentState, ...updates }` with the four curated nested fields
(parsedData, duplicateCheckResult, mtoData, quote) deep-merged. -/
def mergeState (currentState updates : RfqState) : RfqState :=
  { parsedData := deepField currentState.parsedData updates.parsedData
    missingFields := updOr updates.missingFields currentState.missingFields
    clarificationRequests :=
      updOr updates.clarificationRequests currentState.clarificationRequests
    duplicateCheckResult :=
      deepField currentState.duplicateCheckResult updates.duplicateCheckResult
    priority := updOr updates.priority currentState.priority
    complexity := updOr updates.complexity currentState.complexity
    estimatedHours := updOr updates.estimatedHours currentState.estimatedHours
    mtoData := deepField currentState.mtoData updates.mtoData
    quote := deepField currentState.quote updates.quote }

/-- Object.keys of an update, i.e. the field names present in it. -/
def RfqState.keys (s : RfqState) : List String :=
  (if s.parsedData.isSome then ["parsedData"] else []) ++
  (if s.missingFields.isSome then ["missingFields"] else []) ++
  (if s.clarificationRequests.isSome then ["clarificationRequests"] else []) ++
  (if s.duplicateCheckResult.isSome then ["duplicateCheckResult"] else []) ++
  (if s.priority.isSome then ["priority"] else []) ++
  (if s.complexity.isSome then ["complexity"] else []) ++
  (if s.estimatedHours.isSome then ["estimatedHours"] else []) ++
  (if s.mtoData.isSome then ["mtoData"] else []) ++
  (if s.quote.isSome then ["quote"] else [])

/-- Execution status (Prisma enum ExecutionStatus). -/
inductive ExecStatus where
  | PENDING
  | PROCESSING
  | AWAITING_HUMAN
  | COMPLETED
  | FAILED
  | CANCELLED
  deriving DecidableEq

def statusStr : ExecStatus → String
  | .PENDING => "PENDING"
  | .PROCESSING => "PROCESSING"
  | .AWAITING_HUMAN => "AWAITING_HUMAN"
  | .COMPLETED => "COMPLETED"
  | .FAILED => "FAILED"
  | .CANCELLED => "CANCELLED"

/-- An Execution row.  updatedAt/createdAt are not modelled: no claim
mentions them. -/
structure Execution where
  id : String
  emailId : String
  externalRef : Option String
  metadata : Obj
  status : ExecStatus
  currentAgent : String
  completedAt : Option Nat
  deriving DecidableEq

/-- Snapshot type (Prisma enum SnapshotType). -/
inductive SnapshotType where
  | INPUT
  | OUTPUT
  | HUMAN_UPDATE
  deriving DecidableEq

/-- An RfqSnapshot row; id is the insertion counter (Prisma generates an
opaque unique id). -/
structure Snapshot where
  id : Nat
  executionId : String
  agentName : String
  snapshotType : SnapshotType
  data : RfqState
  createdAt : Nat
  deriving DecidableEq

/-- An Event row. -/
structure Event where
  id : String
  executionId : String
  agentTaskId : Option Nat
  eventType : String
  eventData : Obj
  createdAt : Nat
  deriving DecidableEq

/-- AgentTask status (Prisma enum TaskStatus). -/
inductive TaskStatus where
  | PENDING
  | PROCESSING
  | COMPLETED
  | FAILED
  | AWAITING_HUMAN
  | SKIPPED
  deriving DecidableEq

/-- An AgentTask row. -/
structure AgentTask where
  id : Nat
  executionId : String
  agentName : String
  attemptNumber : Nat
  status : TaskStatus
  startedAt : Option Nat
  completedAt : Option Nat
  inputSnapshotId : Option Nat
  outputSnapshotId : Option Nat
  durationMs : Option Nat
  tokenUsage : Option Obj
  costUsd : Option Nat
  errorMessage : Option String
  deriving DecidableEq

/-- A BullMQ job sitting in one of the per-agent queues. -/
structure QJob where
  jobId : String
  queueName : String
  executionId : String
  deriving DecidableEq

/-- The durable shared state: database tables (rows in insertion order)
plus the queued jobs. -/
structure Db where
  executions : List Execution
  snapshots : List Snapshot
  events : List Event
  tasks : List AgentTask
  jobs : List QJob
  deriving DecidableEq

/-- Error taxonomy (src/shared/utils/errors.ts).  The source also defines
ConflictError (409 CONFLICT); it is never thrown anywhere in the code. -/
inductive AppErr where
  | notFound (resource id : String)
  | validation (msg : String)
  | conflict (msg : String)
  deriving DecidableEq

def isConflictErr : Except AppErr α → Bool
  | .error (.conflict _) => true
  | _ => false

/-- prisma.execution.findUnique. -/
def findExec (db : Db) (id : String) : Option Execution :=
  db.executions.find? (fun e => e.id == id)

/-- prisma.execution.update where id — applies f to the matching row. -/
def updateExecRow (db : Db) (id : String) (f : Execution → Execution) : Db :=
  { db with executions :=
      db.executions.map (fun e => if e.id == id then f e else e) }

/-- prisma.agentTask.update where id. -/
def updateTaskRow (db : Db) (id : Nat) (f : AgentTask → AgentTask) : Db :=
  { db with tasks := db.tasks.map (fun t => if t.id == id then f t else t) }

/-- All snapshots of one execution, in insertion order. -/
def snapshotsOf (db : Db) (executionId : String) : List Snapshot :=
  db.snapshots.filter (fun s => s.executionId == executionId)

/-- All events of one execution, in insertion order. -/
def eventsOf (db : Db) (executionId : String) : List Event :=
  db.events.filter (fun v => v.executionId == executionId)

/-- The row a `findFirst orderBy createdAt desc` query returns, as one
deterministic refinement: a stable descending sort by createdAt followed by
taking the first row, i.e. keep the first row among those with maximal
createdAt.  The SQL the source emits (ORDER BY created_at DESC LIMIT 1)
has no secondary sort key, so on ties any row with maximal createdAt may
come back; isLatestCandidate below captures exactly that envelope. -/
def latestBy (l : List Snapshot) : Option Snapshot :=
  l.foldl
    (fun acc s =>
      match acc with
      | none => some s
      | some b => if s.createdAt > b.createdAt then some s else some b)
    none

/-- StateService.getLatestSnapshot (state.service.ts, lines 454-461). -/
def getLatestSnapshot (db : Db) (executionId : String) : Option RfqState :=
  (latestBy (snapshotsOf db executionId)).map (fun s => s.data)

/-- Whether s is a row the source's latest-snapshot query
(findFirst, orderBy createdAt desc, no secondary key) may return. -/
def isLatestCandidate (db : Db) (executionId : String) (s : Snapshot) : Bool :=
  (snapshotsOf db executionId).contains s &&
    (snapshotsOf db executionId).all (fun t => t.createdAt ≤ s.createdAt)

/-- EventService.save; the uuidv4 event id is modelled as a fresh
counter-based id. -/
def saveEvent (db : Db) (executionId : String) (agentTaskId : Option Nat)
    (eventType : String) (eventData : Obj) (now : Nat) : Db :=
  { db with events := db.events ++
      [{ id := "evt" ++ toString db.events.length
         executionId := executionId
         agentTaskId := agentTaskId
         eventType := eventType
         eventData := eventData
         createdAt := now }] }

/-- A DomainEvent returned by an agent (shared/types/agent.types.ts). -/
structure DomainEvent where
  id : String
  eventType : String
  eventData : Obj
  createdAt : Nat
  deriving DecidableEq

/-- EventService.saveMany: batch insert, tagging each event with the
execution and agent task. -/
def saveManyEvents (db : Db) (executionId : String) (agentTaskId : Nat)
    (events : List DomainEvent) : Db :=
  { db with events := db.events ++ events.map (fun e =>
      { id := e.id
        executionId := executionId
        agentTaskId := some agentTaskId
        eventType := e.eventType
        eventData := e.eventData
        createdAt := e.createdAt }) }

/-- StateService.createSnapshot: appends a snapshot row, returns its id. -/
def createSnapshot (db : Db) (executionId agentName : String)
    (snapshotType : SnapshotType) (data : RfqState) (now : Nat) : Db × Nat :=
  let sid := db.snapshots.length
  ({ db with snapshots := db.snapshots ++
      [{ id := sid
         executionId := executionId
         agentName := agentName
         snapshotType := snapshotType
         data := data
         createdAt := now }] }, sid)

/-- The BullMQ jobId the source builds in QueueService.enqueue
(queue.service.ts line 67): executionId-agentName-Date.now(). -/
def jobKey (executionId agentName : String) (now : Nat) : String :=
  executionId ++ "-" ++ agentName ++ "-" ++ toString now

/-- QueueService.enqueue: queue.add with an explicit jobId.  BullMQ ignores
an add whose jobId already exists in the queue, so the add is modelled as
conditional on key freshness. -/
def enqueue (db : Db) (agentName executionId : String) (now : Nat) : Db :=
  if db.jobs.any (fun j => j.jobId == jobKey executionId agentName now) then
    db
  else { db with jobs := db.jobs ++
      [{ jobId := jobKey executionId agentName now
         queueName := agentName
         executionId := executionId }] }

/-- The six agent names, in pipeline order (shared/types/agent.types.ts). -/
def AGENT_PIPELINE : List String :=
  ["intake", "missing-info", "duplicate", "prioritization", "mto",
   "auto-quote"]

def isTerminal : ExecStatus → Bool
  | .COMPLETED => true
  | .FAILED => true
  | .CANCELLED => true
  | _ => false

/-- ExecutionService.updateStatus (execution.service.ts, lines 125-152):
sets status, stamps completedAt for the three terminal statuses, and
shallow-merges any given metadata into the row's metadata. -/
def updateStatus (db : Db) (executionId : String) (status : ExecStatus)
    (metadata : Option Obj) (now : Nat) : Db :=
  updateExecRow db executionId (fun e =>
    let e1 := { e with status := status }
    let e2 := if isTerminal status then { e1 with completedAt := some now }
              else e1
    match metadata with
    | some m => { e2 with metadata := spread e.metadata m }
    | none => e2)

/-- ExecutionService.resume (execution.service.ts, lines 167-235).
Throws NotFound for an unknown id, ValidationError when the status is not
AWAITING_HUMAN (both before any write); otherwise optionally merges the
human update into the latest snapshot as a HUMAN_UPDATE snapshot with a
HUMAN_INPUT_RECEIVED event carrying only the updated field names, then
sets status PROCESSING / currentAgent to the target, emits
EXECUTION_RESUMED, and enqueues the target agent.
`options.resumeFromAgent || execution.currentAgent`: the JS fallback also
triggers on an empty string. -/
def resume (db : Db) (executionId : String) (updatedState : Option RfqState)
    (resumeFromAgent : Option String) (now : Nat) : Db × Except AppErr Unit :=
  match findExec db executionId with
  | none => (db, .error (.notFound "Execution" executionId))
  | some execution =>
    if execution.status = .AWAITING_HUMAN then
      let db1 :=
        match updatedState with
        | some upd =>
          let currentState := (getLatestSnapshot db executionId).getD {}
          let mergedState := mergeState currentState upd
          let dbA := (createSnapshot db executionId "human" .HUMAN_UPDATE
            mergedState now).1
          saveEvent dbA executionId none "HUMAN_INPUT_RECEIVED"
            [("updatedFields", .jstrs upd.keys)] now
        | none => db
      let targetAgent :=
        match resumeFromAgent with
        | some a => if a = "" then execution.currentAgent else a
        | none => execution.currentAgent
      let db2 := updateExecRow db1 executionId (fun e =>
        { e with status := .PROCESSING, currentAgent := targetAgent })
      let db3 := saveEvent db2 executionId none "EXECUTION_RESUMED"
        [("resumedFrom", .jstr targetAgent)] now
      (enqueue db3 targetAgent executionId now, .ok ())
    else
      (db, .error (.validation
        ("Execution is not awaiting human input. Current status: " ++
          statusStr execution.status)))

/-- ExecutionService.cancel (execution.service.ts, lines 311-340).
Throws ValidationError on COMPLETED or CANCELLED; otherwise sets status
CANCELLED with completedAt and emits one EXECUTION_CANCELLED event. -/
def cancel (db : Db) (executionId : String) (now : Nat) :
    Db × Except AppErr Unit :=
  match findExec db executionId with
  | none => (db, .error (.notFound "Execution" executionId))
  | some execution =>
    if execution.status = .COMPLETED ∨ execution.status = .CANCELLED then
      (db, .error (.validation
        ("Cannot cancel execution with status: " ++ statusStr execution.status)))
    else
      let db1 := updateExecRow db executionId (fun e =>
        { e with status := .CANCELLED, completedAt := some now })
      (saveEvent db1 executionId none "EXECUTION_CANCELLED" [] now, .ok ())

/-- ExecutionService.replay (execution.service.ts, lines 240-306).
newId is the fresh id Prisma generates for the forked execution. -/
def replay (db : Db) (executionId fromAgent newId : String) (now : Nat) :
    Db × Except AppErr String :=
  match findExec db executionId with
  | none => (db, .error (.notFound "Execution" executionId))
  | some execution =>
    if fromAgent ∈ AGENT_PIPELINE then
      let inputSnap := latestBy ((snapshotsOf db executionId).filter
        (fun s => s.agentName == fromAgent && s.snapshotType == .INPUT))
      let newExec : Execution :=
        { id := newId
          emailId := execution.emailId
          externalRef := execution.externalRef
          metadata := spread execution.metadata
            [("replayedFrom", .jstr executionId),
             ("replayedFromAgent", .jstr fromAgent)]
          status := .PENDING
          currentAgent := fromAgent
          completedAt := none }
      let db1 := { db with executions := db.executions ++ [newExec] }
      let db2 :=
        match inputSnap with
        | some s => (createSnapshot db1 newId fromAgent .INPUT s.data now).1
        | none => db1
      let db3 := saveEvent db2 newId none "EXECUTION_CREATED"
        [("replayedFrom", .jstr executionId), ("fromAgent", .jstr fromAgent)]
        now
      (enqueue db3 fromAgent newId now, .ok newId)
    else
      (db, .error (.validation ("Invalid agent name: " ++ fromAgent)))

/-- NextAction returned by an agent (shared/types/agent.types.ts). -/
inductive NextAction where
  | CONTINUE (nextAgent : String)
  | AWAIT_HUMAN (reason : String) (requiredFields : Option (List String))
  | COMPLETE
  | FAIL (error : String)
  | SKIP (reason : String) (nextAgent : String)
  deriving DecidableEq

/-- AgentResult returned by agent.execute (shared/types/agent.types.ts);
the opaque agent call is a parameter of the worker model. -/
structure AgentResult where
  success : Bool
  outputState : RfqState
  events : List DomainEvent
  nextAction : NextAction
  durationMs : Option Nat
  tokenUsage : Option Obj
  costUsd : Option Nat
  deriving DecidableEq

/-- The execution status each next action leaves behind (PROCESSING was set
unconditionally at step 2 and CONTINUE/SKIP only change currentAgent). -/
def nextStatus : NextAction → ExecStatus
  | .CONTINUE _ => .PROCESSING
  | .SKIP _ _ => .PROCESSING
  | .AWAIT_HUMAN _ _ => .AWAITING_HUMAN
  | .COMPLETE => .COMPLETED
  | .FAIL _ => .FAILED

/-- The job handler of createAgentWorker (agent.worker.ts, lines 19-210),
steps numbered as in the source.  result is what agent.execute returned;
attemptsMade is the BullMQ retry count of the job.  The handler has no
idempotency or staleness check of any kind: it never compares the loaded
status or currentAgent against the job before producing its writes. -/
def processJob (db : Db) (agentName executionId : String)
    (attemptsMade : Nat) (result : AgentResult) (now : Nat) :
    Db × Except AppErr Unit :=
  -- 1. load execution (findUniqueOrThrow) and its latest snapshot
  match findExec db executionId with
  | none => (db, .error (.notFound "Execution" executionId))
  | some execution =>
    let latestSnapshot := latestBy (snapshotsOf db executionId)
    -- 2. unconditionally set status PROCESSING
    let db1 := updateExecRow db executionId (fun e =>
      { e with status := .PROCESSING })
    -- 3. current state from the latest snapshot
    let currentState := (latestSnapshot.map (fun s => s.data)).getD {}
    -- 5. create the agent task record
    let taskId := db1.tasks.length
    let db2 := { db1 with tasks := db1.tasks ++
      [{ id := taskId
         executionId := executionId
         agentName := agentName
         attemptNumber := attemptsMade + 1
         status := .PROCESSING
         startedAt := some now
         completedAt := none
         inputSnapshotId := latestSnapshot.map (fun s => s.id)
         outputSnapshotId := none
         durationMs := none
         tokenUsage := none
         costUsd := none
         errorMessage := none }] }
    -- 7. save the merged output snapshot
    let mergedState := mergeState currentState result.outputState
    let step7 := createSnapshot db2 executionId agentName .OUTPUT
      mergedState now
    let db3 := step7.1
    let outputSnapshotId := step7.2
    -- 8. save the events returned by the agent
    let db4 := saveManyEvents db3 executionId taskId result.events
    -- 9. close the agent task
    let db5 := updateTaskRow db4 taskId (fun t =>
      { t with
        status := if result.success then .COMPLETED else .FAILED
        completedAt := some now
        outputSnapshotId := some outputSnapshotId
        durationMs := result.durationMs
        tokenUsage := result.tokenUsage
        costUsd := result.costUsd
        errorMessage :=
          if result.success then none
          else
            match result.nextAction with
            | .FAIL err => some err
            | _ => none })
    -- 10. handle the next action
    let db6 :=
      match result.nextAction with
      | .CONTINUE nextAgent =>
        enqueue
          (updateExecRow db5 executionId (fun e =>
            { e with currentAgent := nextAgent }))
          nextAgent executionId now
      | .SKIP _ nextAgent =>
        enqueue
          (updateExecRow db5 executionId (fun e =>
            { e with currentAgent := nextAgent }))
          nextAgent executionId now
      | .AWAIT_HUMAN reason requiredFields =>
        saveEvent
          (updateExecRow db5 executionId (fun e =>
            { e with
              status := .AWAITING_HUMAN
              metadata := spread execution.metadata
                ([("awaitingReason", .jstr reason)] ++
                  match requiredFields with
                  | some l => [("requiredFields", .jstrs l)]
                  | none => []) }))
          executionId none "HUMAN_INTERVENTION_REQUIRED"
          ([("reason", .jstr reason)] ++
            match requiredFields with
            | some l => [("requiredFields", .jstrs l)]
            | none => [])
          now
      | .COMPLETE =>
        saveEvent
          (updateExecRow db5 executionId (fun e =>
            { e with status := .COMPLETED, completedAt := some now }))
          executionId none "EXECUTION_COMPLETED" [] now
      | .FAIL err =>
        saveEvent
          (updateExecRow db5 executionId (fun e =>
            { e with
              status := .FAILED
              metadata := spread execution.metadata
                [("error", .jstr err)] }))
          executionId none "EXECUTION_FAILED" [("error", .jstr err)] now
    (db6, .ok ())

theorem find?_append_some (l l' : List α) (p : α → Bool) (a : α)
    (h : l.find? p = some a) : (l ++ l').find? p = some a := by
  rw [find?_append_eq, h]

theorem find?_append_of_none (l l' : List α) (p : α → Bool)
    (h : l.find? p = none) : (l ++ l').find? p = l'.find? p := by
  rw [find?_append_eq, h]

theorem find?_map_update (l : List Execution) (i : String)
    (f : Execution → Execution) (hf : ∀ e, (f e).id = e.id) :
    (l.map (fun e => if e.id == i then f e else e)).find?
        (fun e => e.id == i) =
      (l.find? (fun e => e.id == i)).map f := by
  induction l with
  | nil => rfl
  | cons x l ih =>
    by_cases hx : x.id = i
    · simp [List.find?, hx, hf x]
    · have hx' : (x.id == i) = false := by simpa using hx
      rw [List.map_cons,
        List.find?_cons_of_neg _ (by simp [hx']),
        List.find?_cons_of_neg _ (by simp [hx']), ih]

@[simp] theorem executions_updateExecRow (db : Db) (i : String)
    (f : Execution → Execution) :
    (updateExecRow db i f).executions =
      db.executions.map (fun e => if e.id == i then f e else e) := rfl

@[simp] theorem tasks_updateExecRow (db : Db) (i : String)
    (f : Execution → Execution) :
    (updateExecRow db i f).tasks = db.tasks := rfl

@[simp] theorem snapshots_updateExecRow (db : Db) (i : String)
    (f : Execution → Execution) :
    (updateExecRow db i f).snapshots = db.snapshots := rfl

@[simp] theorem events_updateExecRow (db : Db) (i : String)
    (f : Execution → Execution) :
    (updateExecRow db i f).events = db.events := rfl

@[simp] theorem jobs_updateExecRow (db : Db) (i : String)
    (f : Execution → Execution) :
    (updateExecRow db i f).jobs = db.jobs := rfl

@[simp] theorem executions_saveEvent (db : Db) (i : String) (t : Option Nat)
    (ty : String) (d : Obj) (n : Nat) :
    (saveEvent db i t ty d n).executions = db.executions := rfl

@[simp] theorem snapshots_saveEvent (db : Db) (i : String) (t : Option Nat)
    (ty : String) (d : Obj) (n : Nat) :
    (saveEvent db i t ty d n).snapshots = db.snapshots := rfl

@[simp] theorem tasks_saveEvent (db : Db) (i : String) (t : Option Nat)
    (ty : String) (d : Obj) (n : Nat) :
    (saveEvent db i t ty d n).tasks = db.tasks := rfl

@[simp] theorem jobs_saveEvent (db : Db) (i : String) (t : Option Nat)
    (ty : String) (d : Obj) (n : Nat) :
    (saveEvent db i t ty d n).jobs = db.jobs := rfl

@[simp] theorem events_saveEvent (db : Db) (i : String) (t : Option Nat)
    (ty : String) (d : Obj) (n : Nat) :
    (saveEvent db i t ty d n).events = db.events ++
      [{ id := "evt" ++ toString db.events.length
         executionId := i
         agentTaskId := t
         eventType := ty
         eventData := d
         createdAt := n }] := rfl

@[simp] theorem executions_createSnapshot (db : Db) (i a : String)
    (ty : SnapshotType) (d : RfqState) (n : Nat) :
    (createSnapshot db i a ty d n).1.executions = db.executions := rfl

@[simp] theorem tasks_createSnapshot (db : Db) (i a : String)
    (ty : SnapshotType) (d : RfqState) (n : Nat) :
    (createSnapshot db i a ty d n).1.tasks = db.tasks := rfl

@[simp] theorem events_createSnapshot (db : Db) (i a : String)
    (ty : SnapshotType) (d : RfqState) (n : Nat) :
    (createSnapshot db i a ty d n).1.events = db.events := rfl

@[simp] theorem jobs_createSnapshot (db : Db) (i a : String)
    (ty : SnapshotType) (d : RfqState) (n : Nat) :
    (createSnapshot db i a ty d n).1.jobs = db.jobs := rfl

@[simp] theorem snapshots_createSnapshot (db : Db) (i a : String)
    (ty : SnapshotType) (d : RfqState) (n : Nat) :
    (createSnapshot db i a ty d n).1.snapshots = db.snapshots ++
      [{ id := db.snapshots.length
         executionId := i
         agentName := a
         snapshotType := ty
         data := d
         createdAt := n }] := rfl

@[simp] theorem executions_saveManyEvents (db : Db) (i : String) (t : Nat)
    (es : List DomainEvent) :
    (saveManyEvents db i t es).executions = db.executions := rfl

@[simp] theorem snapshots_saveManyEvents (db : Db) (i : String) (t : Nat)
    (es : List DomainEvent) :
    (saveManyEvents db i t es).snapshots = db.snapshots := rfl

@[simp] theorem tasks_saveManyEvents (db : Db) (i : String) (t : Nat)
    (es : List DomainEvent) :
    (saveManyEvents db i t es).tasks = db.tasks := rfl

@[simp] theorem jobs_saveManyEvents (db : Db) (i : String) (t : Nat)
    (es : List DomainEvent) :
    (saveManyEvents db i t es).jobs = db.jobs := rfl

@[simp] theorem executions_updateTaskRow (db : Db) (i : Nat)
    (f : AgentTask → AgentTask) :
    (updateTaskRow db i f).executions = db.executions := rfl

@[simp] theorem snapshots_updateTaskRow (db : Db) (i : Nat)
    (f : AgentTask → AgentTask) :
    (updateTaskRow db i f).snapshots = db.snapshots := rfl

@[simp] theorem events_updateTaskRow (db : Db) (i : Nat)
    (f : AgentTask → AgentTask) :
    (updateTaskRow db i f).events = db.events := rfl

@[simp] theorem jobs_updateTaskRow (db : Db) (i : Nat)
    (f : AgentTask → AgentTask) :
    (updateTaskRow db i f).jobs = db.jobs := rfl

@[simp] theorem tasks_updateTaskRow_length (db : Db) (i : Nat)
    (f : AgentTask → AgentTask) :
    (updateTaskRow db i f).tasks.length = db.tasks.length := by
  unfold updateTaskRow
  simp

@[simp] theorem executions_enqueue (db : Db) (a e : String) (n : Nat) :
    (enqueue db a e n).executions = db.executions := by
  unfold enqueue
  split <;> rfl

@[simp] theorem snapshots_enqueue (db : Db) (a e : String) (n : Nat) :
    (enqueue db a e n).snapshots = db.snapshots := by
  unfold enqueue
  split <;> rfl

@[simp] theorem events_enqueue (db : Db) (a e : String) (n : Nat) :
    (enqueue db a e n).events = db.events := by
  unfold enqueue
  split <;> rfl

@[simp] theorem tasks_enqueue (db : Db) (a e : String) (n : Nat) :
    (enqueue db a e n).tasks = db.tasks := by
  unfold enqueue
  split <;> rfl

theorem jobs_enqueue_fresh (db : Db) (a e : String) (n : Nat)
    (h : ∀ j ∈ db.jobs, j.jobId ≠ jobKey e a n) :
    (enqueue db a e n).jobs = db.jobs ++
      [{ jobId := jobKey e a n, queueName := a, executionId := e }] := by
  unfold enqueue
  have hno : (db.jobs.any (fun j => j.jobId == jobKey e a n)) = false := by
    rw [List.any_eq_false]
    intro j hj
    simpa using h j hj
  simp [hno]

theorem findExec_updateExecRow (db : Db) (i : String)
    (f : Execution → Execution) (hf : ∀ e, (f e).id = e.id) :
    findExec (updateExecRow db i f) i = (findExec db i).map f := by
  unfold findExec
  simpa using find?_map_update db.executions i f hf

theorem findExec_setStatusAgent_proj (db : Db) (i : String)
    (st : ExecStatus) (cur : String) (e : Execution)
    (h : findExec db i = some e) :
    (findExec (updateExecRow db i
        (fun x => { x with status := st, currentAgent := cur })) i).map
      (fun x => (x.status, x.currentAgent)) = some (st, cur) := by
  rw [findExec_updateExecRow db i
    (fun x => { x with status := st, currentAgent := cur })
    (fun x => rfl), h]
  rfl

@[simp] theorem findExec_saveEvent (db : Db) (i : String) (t : Option Nat)
    (ty : String) (d : Obj) (n : Nat) (j : String) :
    findExec (saveEvent db i t ty d n) j = findExec db j := rfl

@[simp] theorem findExec_createSnapshot (db : Db) (i a : String)
    (ty : SnapshotType) (d : RfqState) (n : Nat) (j : String) :
    findExec (createSnapshot db i a ty d n).1 j = findExec db j := rfl

@[simp] theorem findExec_saveManyEvents (db : Db) (i : String) (t : Nat)
    (es : List DomainEvent) (j : String) :
    findExec (saveManyEvents db i t es) j = findExec db j := rfl

@[simp] theorem findExec_updateTaskRow (db : Db) (i : Nat)
    (f : AgentTask → AgentTask) (j : String) :
    findExec (updateTaskRow db i f) j = findExec db j := rfl

@[simp] theorem findExec_enqueue (db : Db) (a e : String) (n : Nat)
    (j : String) :
    findExec (enqueue db a e n) j = findExec db j := by
  unfold enqueue
  split <;> rfl

/-- The key-by-key lookup the deep merge is supposed to realise: the
update's value when the key is present in the update, else the current
value. -/
def mergeLookup (cur upd : Option Obj) (k : String) : Option JVal :=
  match Obj.get (upd.getD []) k with
  | some v => some v
  | none => Obj.get (cur.getD []) k

theorem deepField_get (cur upd : Option Obj) (k : String) :
    Obj.get ((deepField cur upd).getD []) k = mergeLookup cur upd k := by
  cases upd with
  | none => simp [deepField, mergeLookup, Obj.get]
  | some u => simp [deepField, mergeLookup, spread_get]

/-- Claim C10: merging an empty update is the identity on states. -/
theorem c10_mergeState_empty_update (s : RfqState) : mergeState s {} = s := by
  cases s
  rfl

/-- Claim C4: mergeState deep-merges each of the four curated nested
fields key-by-key (the update wins per key, other keys of the current
value survive) — so merging a parsedData of a:1 and then one of b:2 keeps
both keys — while every non-curated field present in the update replaces
the current value wholesale. -/
theorem c4_mergeState_deep_and_wholesale (cur upd : RfqState) :
    (∀ k, Obj.get (((mergeState cur upd).parsedData).getD []) k =
      mergeLookup cur.parsedData upd.parsedData k) ∧
    (∀ k, Obj.get (((mergeState cur upd).duplicateCheckResult).getD []) k =
      mergeLookup cur.duplicateCheckResult upd.duplicateCheckResult k) ∧
    (∀ k, Obj.get (((mergeState cur upd).mtoData).getD []) k =
      mergeLookup cur.mtoData upd.mtoData k) ∧
    (∀ k, Obj.get (((mergeState cur upd).quote).getD []) k =
      mergeLookup cur.quote upd.quote k) ∧
    (∀ v, upd.missingFields = some v →
      (mergeState cur upd).missingFields = some v) ∧
    (∀ v, upd.clarificationRequests = some v →
      (mergeState cur upd).clarificationRequests = some v) ∧
    (∀ v, upd.priority = some v → (mergeState cur upd).priority = some v) ∧
    (∀ v, upd.complexity = some v → (mergeState cur upd).complexity = some v) ∧
    (∀ v, upd.estimatedHours = some v →
      (mergeState cur upd).estimatedHours = some v) ∧
    (mergeState
        (mergeState {} { parsedData := some [("a", JVal.jnum 1)] })
        { parsedData := some [("b", JVal.jnum 2)] }).parsedData =
      some [("a", JVal.jnum 1), ("b", JVal.jnum 2)] := by
  refine ⟨fun k => deepField_get _ _ _, fun k => deepField_get _ _ _,
    fun k => deepField_get _ _ _, fun k => deepField_get _ _ _,
    ?_, ?_, ?_, ?_, ?_, ?_⟩
  · intro v hv
    simp [mergeState, updOr, hv]
  · intro v hv
    simp [mergeState, updOr, hv]
  · intro v hv
    simp [mergeState, updOr, hv]
  · intro v hv
    simp [mergeState, updOr, hv]
  · intro v hv
    simp [mergeState, updOr, hv]
  · rfl

/-- Closed instance of the C4 theorem: hypotheses discharged at a concrete
current state and update. -/
theorem c4_witness :
    Obj.get (((mergeState
        { parsedData := some [("x", JVal.jnum 7)] }
        { parsedData := some [("y", JVal.jnum 8)],
          missingFields := some ["f"], priority := some "HIGH" }).parsedData).getD [])
        "x" =
      mergeLookup (some [("x", JVal.jnum 7)]) (some [("y", JVal.jnum 8)]) "x" ∧
    (mergeState
        { parsedData := some [("x", JVal.jnum 7)] }
        { parsedData := some [("y", JVal.jnum 8)],
          missingFields := some ["f"], priority := some "HIGH" }).missingFields =
      some ["f"] ∧
    (mergeState
        { parsedData := some [("x", JVal.jnum 7)] }
        { parsedData := some [("y", JVal.jnum 8)],
          missingFields := some ["f"], priority := some "HIGH" }).priority =
      some "HIGH" := by
  have h := c4_mergeState_deep_and_wholesale
    { parsedData := some [("x", JVal.jnum 7)] }
    { parsedData := some [("y", JVal.jnum 8)],
      missingFields := some ["f"], priority := some "HIGH" }
  exact ⟨h.1 "x", h.2.2.2.2.1 ["f"] rfl, h.2.2.2.2.2.2.1 "HIGH" rfl⟩

/-- Decimal digits of n, most significant first: the list that
Nat.toDigitsCore produces when given enough fuel. -/
def digitsList (n : Nat) : List Char :=
  if _h : n < 10 then [Nat.digitChar n]
  else digitsList (n / 10) ++ [Nat.digitChar (n % 10)]
termination_by n
decreasing_by
  exact Nat.div_lt_self (by omega) (by omega)

theorem toDigitsCore_eq_digitsList :
    ∀ (fuel n : Nat) (ds : List Char), n < fuel →
      Nat.toDigitsCore 10 fuel n ds = digitsList n ++ ds := by
  intro fuel
  induction fuel with
  | zero =>
    intro n ds h
    exact absurd h (Nat.not_lt_zero n)
  | succ fuel ih =>
    intro n ds h
    unfold Nat.toDigitsCore
    by_cases h0 : n / 10 = 0
    · have hn : n < 10 := by omega
      rw [if_pos h0, digitsList, dif_pos hn, Nat.mod_eq_of_lt hn]
      rfl
    · have h10 : 10 ≤ n := by omega
      have hfuel : n / 10 < fuel := by
        have hlt : n / 10 < n := Nat.div_lt_self (by omega) (by omega)
        omega
      rw [if_neg h0, ih (n / 10) _ hfuel]
      conv_rhs => rw [digitsList, dif_neg (by omega : ¬n < 10)]
      rw [List.append_assoc, List.singleton_append]

def decChar (c : Char) : Nat := c.toNat - 48

def decList (l : List Char) : Nat :=
  l.foldl (fun a c => 10 * a + decChar c) 0

theorem decChar_digitChar (m : Nat) (h : m < 10) :
    decChar (Nat.digitChar m) = m := by
  interval_cases m <;> rfl

theorem decList_digitsList (n : Nat) : decList (digitsList n) = n := by
  induction n using Nat.strong_induction_on with
  | _ n ih =>
    by_cases h : n < 10
    · rw [digitsList, dif_pos h]
      simp [decList, List.foldl, decChar_digitChar n h]
    · rw [digitsList, dif_neg h]
      have hrec : n / 10 < n := Nat.div_lt_self (by omega) (by omega)
      have hmod : n % 10 < 10 := Nat.mod_lt n (by omega)
      rw [decList, List.foldl_append]
      rw [show List.foldl (fun a c => 10 * a + decChar c) 0
          (digitsList (n / 10)) = decList (digitsList (n / 10)) from rfl]
      rw [ih _ hrec]
      simp [List.foldl, decChar_digitChar _ hmod]
      omega

theorem string_data_ext (a b : String) (h : a.data = b.data) : a = b := by
  cases a
  cases b
  exact congrArg String.mk h

theorem natRepr_injective (m n : Nat) (h : Nat.repr m = Nat.repr n) :
    m = n := by
  unfold Nat.repr Nat.toDigits at h
  rw [toDigitsCore_eq_digitsList _ _ _ (Nat.lt_succ_self m),
    toDigitsCore_eq_digitsList _ _ _ (Nat.lt_succ_self n)] at h
  have h2 : digitsList m = digitsList n := by
    have hd := congrArg String.data h
    simpa [List.asString] using hd
  have hm := decList_digitsList m
  rw [h2, decList_digitsList n] at hm
  exact hm.symm

theorem jobKey_time_injective (eid ag : String) (t1 t2 : Nat)
    (h : t1 ≠ t2) : jobKey eid ag t1 ≠ jobKey eid ag t2 := by
  intro hk
  apply h
  apply natRepr_injective
  apply string_data_ext
  unfold jobKey at hk
  have hd := congrArg String.data hk
  simp only [String.data_append] at hd
  simpa using hd

/-- An empty database. -/
def emptyDb : Db :=
  { executions := [], snapshots := [], events := [], tasks := [], jobs := [] }

/-- A sample execution row with the given status. -/
def db1row (st : ExecStatus) : Execution :=
  { id := "e1"
    emailId := "m1"
    externalRef := none
    metadata := []
    status := st
    currentAgent := "intake"
    completedAt := none }

/-- A one-execution database with the given status. -/
def db1exec (st : ExecStatus) : Db :=
  { executions := [db1row st]
    snapshots := []
    events := []
    tasks := []
    jobs := [] }

/-- Claim C9 counterexample: two enqueue calls for the same execution and
stage that observe the same clock millisecond build the same job key, so
the second call does not yield a second, distinct job (the queue still
holds one job). -/
theorem c9_counterexample :
    (enqueue emptyDb "intake" "e1" 5).jobs.length = 1 ∧
    (enqueue (enqueue emptyDb "intake" "e1" 5) "intake" "e1" 5).jobs.length
      = 1 := by
  exact ⟨rfl, rfl⟩

/-- Claim C9 (amended): the job key includes the observed timestamp, so two
enqueue calls for the same execution id and stage yield distinct keys — and
a second, distinct job — whenever they observe different timestamps; two
calls in the same clock millisecond produce the identical key and the
second add is suppressed. -/
theorem c9_amended (db : Db) (eid stage : String) (t1 t2 : Nat)
    (hne : t1 ≠ t2)
    (h1 : ∀ j ∈ db.jobs, j.jobId ≠ jobKey eid stage t1)
    (h2 : ∀ j ∈ db.jobs, j.jobId ≠ jobKey eid stage t2) :
    jobKey eid stage t1 ≠ jobKey eid stage t2 ∧
    (enqueue (enqueue db stage eid t1) stage eid t2).jobs.length =
      db.jobs.length + 2 := by
  have hkey := jobKey_time_injective eid stage t1 t2 hne
  refine ⟨hkey, ?_⟩
  have hjobs1 := jobs_enqueue_fresh db stage eid t1 h1
  have h2' : ∀ j ∈ (enqueue db stage eid t1).jobs,
      j.jobId ≠ jobKey eid stage t2 := by
    intro j hj
    rw [hjobs1] at hj
    rcases List.mem_append.mp hj with hold | hnew
    · exact h2 j hold
    · have hj1 : j = QJob.mk (jobKey eid stage t1) stage eid := by
        simpa using hnew
      rw [hj1]
      exact hkey
  rw [jobs_enqueue_fresh _ stage eid t2 h2', hjobs1]
  simp

theorem c9_amended_witness :
    jobKey "e1" "intake" 5 ≠ jobKey "e1" "intake" 6 ∧
    (enqueue (enqueue emptyDb "intake" "e1" 5) "intake" "e1" 6).jobs.length =
      emptyDb.jobs.length + 2 := by
  refine c9_amended emptyDb "e1" "intake" 5 6 (by omega) ?_ ?_
  · intro j hj
    exact absurd hj (List.not_mem_nil j)
  · intro j hj
    exact absurd hj (List.not_mem_nil j)

/-- Claim C5 counterexample: resume on an existing Execution whose status
is PENDING (not AWAITING_HUMAN) performs no writes, but the error raised
is a ValidationError (400 VALIDATION_ERROR), not a Conflict error — the
source never throws its ConflictError class. -/
theorem c5_counterexample :
    (resume (db1exec .PENDING) "e1" none none 10).1 = db1exec .PENDING ∧
    (resume (db1exec .PENDING) "e1" none none 10).2 =
      Except.error (AppErr.validation
        "Execution is not awaiting human input. Current status: PENDING") ∧
    isConflictErr (resume (db1exec .PENDING) "e1" none none 10).2 = false :=
  ⟨rfl, rfl, rfl⟩

/-- Claim C5 (amended): resume on an existing Execution whose status is not
AWAITING_HUMAN fails fast with a ValidationError (not the Conflict error
the spec names: the source defines a ConflictError class but never throws
it) and performs no writes: the database — executions, events, snapshots,
tasks and queued jobs — is returned unchanged. -/
theorem c5_amended (db : Db) (eid : String) (us : Option RfqState)
    (ra : Option String) (now : Nat) (e : Execution)
    (h : findExec db eid = some e) (hst : e.status ≠ .AWAITING_HUMAN) :
    (resume db eid us ra now).1 = db ∧
    (resume db eid us ra now).2 = Except.error (AppErr.validation
      ("Execution is not awaiting human input. Current status: " ++
        statusStr e.status)) := by
  unfold resume
  rw [h]
  simp [hst]

theorem c5_amended_witness :
    (resume (db1exec .PROCESSING) "e1" none none 3).1 =
      db1exec .PROCESSING ∧
    (resume (db1exec .PROCESSING) "e1" none none 3).2 =
      Except.error (AppErr.validation
        ("Execution is not awaiting human input. Current status: " ++
          statusStr (db1row .PROCESSING).status)) :=
  c5_amended (db1exec .PROCESSING) "e1" none none 3 (db1row .PROCESSING)
    rfl (by decide)

/-- Claim C6 counterexample: cancel on a COMPLETED Execution performs no
writes, but raises a ValidationError, not a Conflict error. -/
theorem c6_counterexample :
    (cancel (db1exec .COMPLETED) "e1" 10).1 = db1exec .COMPLETED ∧
    (cancel (db1exec .COMPLETED) "e1" 10).2 =
      Except.error (AppErr.validation
        "Cannot cancel execution with status: COMPLETED") ∧
    isConflictErr (cancel (db1exec .COMPLETED) "e1" 10).2 = false :=
  ⟨rfl, rfl, rfl⟩

/-- Claim C6 (amended): cancel on an existing Execution raises a
ValidationError (not the Conflict error the spec names) and performs no
writes when the status is COMPLETED or CANCELLED; for every other status
(including PROCESSING) it succeeds, sets status CANCELLED and completedAt,
and appends exactly one EXECUTION_CANCELLED event. -/
theorem c6_amended (db : Db) (eid : String) (now : Nat) (e : Execution)
    (h : findExec db eid = some e) :
    ((e.status = .COMPLETED ∨ e.status = .CANCELLED) →
      (cancel db eid now).1 = db ∧
      (cancel db eid now).2 = Except.error (AppErr.validation
        ("Cannot cancel execution with status: " ++ statusStr e.status))) ∧
    (e.status ≠ .COMPLETED → e.status ≠ .CANCELLED →
      (cancel db eid now).2 = Except.ok () ∧
      (findExec (cancel db eid now).1 eid).map
          (fun x => (x.status, x.completedAt)) =
        some (ExecStatus.CANCELLED, some now) ∧
      (cancel db eid now).1.events.map
          (fun v => (v.executionId, v.eventType)) =
        db.events.map (fun v => (v.executionId, v.eventType)) ++
          [(eid, "EXECUTION_CANCELLED")]) := by
  constructor
  · intro hterm
    unfold cancel
    rw [h]
    simp [if_pos hterm]
  · intro hc1 hc2
    have hterm : ¬(e.status = .COMPLETED ∨ e.status = .CANCELLED) := by
      rintro (hx | hx)
      · exact hc1 hx
      · exact hc2 hx
    unfold cancel
    rw [h]
    dsimp only
    rw [if_neg hterm]
    refine ⟨rfl, ?_, ?_⟩
    · have hupd := findExec_updateExecRow db eid
        (fun x => { x with status := ExecStatus.CANCELLED,
                           completedAt := some now })
        (fun x => rfl)
      rw [findExec_saveEvent, hupd, h]
      rfl
    · simp

theorem c6_amended_witness :
    ((cancel (db1exec .COMPLETED) "e1" 7).1 = db1exec .COMPLETED ∧
      (cancel (db1exec .COMPLETED) "e1" 7).2 =
        Except.error (AppErr.validation
          ("Cannot cancel execution with status: " ++
            statusStr (db1row .COMPLETED).status))) ∧
    ((cancel (db1exec .PROCESSING) "e1" 7).2 = Except.ok () ∧
      (findExec (cancel (db1exec .PROCESSING) "e1" 7).1 "e1").map
          (fun x => (x.status, x.completedAt)) =
        some (ExecStatus.CANCELLED, some 7) ∧
      (cancel (db1exec .PROCESSING) "e1" 7).1.events.map
          (fun v => (v.executionId, v.eventType)) =
        (db1exec .PROCESSING).events.map
          (fun v => (v.executionId, v.eventType)) ++
          [("e1", "EXECUTION_CANCELLED")]) := by
  have hA := c6_amended (db1exec .COMPLETED) "e1" 7 (db1row .COMPLETED) rfl
  have hB := c6_amended (db1exec .PROCESSING) "e1" 7 (db1row .PROCESSING) rfl
  exact ⟨hA.1 (Or.inl rfl), hB.2 (by decide) (by decide)⟩

theorem latestBy_concat (l : List Snapshot) (x : Snapshot) :
    latestBy (l ++ [x]) =
      match latestBy l with
      | none => some x
      | some b => if x.createdAt > b.createdAt then some x else some b := by
  unfold latestBy
  simp only [List.foldl_append, List.foldl_cons, List.foldl_nil]

theorem latestBy_pairwise (l : List Snapshot)
    (hp : l.Pairwise (fun a b => a.createdAt < b.createdAt)) :
    latestBy l = l.getLast? := by
  induction l using List.reverseRecOn with
  | nil => rfl
  | append_singleton L b ih =>
    have hsplit := List.pairwise_append.mp hp
    have hpL := hsplit.1
    have hlt : ∀ a ∈ L, a.createdAt < b.createdAt := by
      intro a ha
      exact hsplit.2.2 a ha b (by simp)
    rw [latestBy_concat, ih hpL]
    cases hL : L.getLast? with
    | none => simp [List.getLast?_concat]
    | some a =>
      have ha : a ∈ L := List.mem_of_mem_getLast? (by simp [hL])
      have hab : b.createdAt > a.createdAt := hlt a ha
      simp [List.getLast?_concat, if_pos hab]

theorem pairwise_candidate_getLast (l : List Snapshot) (s : Snapshot)
    (hp : l.Pairwise (fun a b => a.createdAt < b.createdAt))
    (hmem : s ∈ l) (hmax : ∀ t ∈ l, t.createdAt ≤ s.createdAt) :
    l.getLast? = some s := by
  rcases List.eq_nil_or_concat l with rfl | ⟨L, b, rfl⟩
  · cases hmem
  · rw [List.concat_eq_append] at hp hmem ⊢
    have hsplit := List.pairwise_append.mp hp
    have hb : ∀ a ∈ L, a.createdAt < b.createdAt := by
      intro a ha
      exact hsplit.2.2 a ha b (by simp)
    rcases List.mem_append.mp hmem with hL | hs
    · exfalso
      have h1 : b.createdAt ≤ s.createdAt := hmax b (by simp)
      have h2 : s.createdAt < b.createdAt := hb s hL
      omega
    · have hsb : s = b := by simpa using hs
      rw [hsb]
      simp [List.getLast?_concat]

/-- Sample snapshots for the latest-snapshot claims: two OUTPUT snapshots
of the same execution created in the same millisecond, plus a later one. -/
def c3snapA : Snapshot :=
  { id := 0
    executionId := "e1"
    agentName := "intake"
    snapshotType := .OUTPUT
    data := { priority := some "LOW" }
    createdAt := 5 }

def c3snapB : Snapshot :=
  { id := 1
    executionId := "e1"
    agentName := "duplicate"
    snapshotType := .OUTPUT
    data := { priority := some "HIGH" }
    createdAt := 5 }

def c3snapC : Snapshot :=
  { id := 1
    executionId := "e1"
    agentName := "duplicate"
    snapshotType := .OUTPUT
    data := { priority := some "HIGH" }
    createdAt := 6 }

def c3db : Db :=
  { executions := [db1row .PROCESSING]
    snapshots := [c3snapA, c3snapB]
    events := []
    tasks := []
    jobs := [] }

def c3dbW : Db :=
  { executions := [db1row .PROCESSING]
    snapshots := [c3snapA, c3snapC]
    events := []
    tasks := []
    jobs := [] }

/-- Claim C3 counterexample: with two snapshots of the same execution
created in the same millisecond, the first-inserted snapshot is a row the
latest-snapshot query (ORDER BY created_at DESC LIMIT 1, no secondary
key) may return — and is what the stable-sort reading of the query does
return — although the Nth (last-inserted) snapshot is the other one, whose
data differs.  Ties are not broken by insertion order. -/
theorem c3_counterexample :
    isLatestCandidate c3db "e1" c3snapA = true ∧
    (snapshotsOf c3db "e1").getLast? = some c3snapB ∧
    c3snapA.data ≠ c3snapB.data ∧
    getLatestSnapshot c3db "e1" = some c3snapA.data := by
  refine ⟨by decide, by decide, by decide, by decide⟩

/-- Claim C3 (amended): getLatestSnapshot returns the data of a snapshot
with maximal createdAt among the execution's snapshots; when the
execution's snapshots have strictly increasing creation times (no ties),
every row the query may return is exactly the Nth, most recently created
snapshot, and getLatestSnapshot returns its data.  The query orders by
createdAt alone, so insertion order decides nothing on ties. -/
theorem c3_amended (db : Db) (eid : String) (s : Snapshot)
    (hp : (snapshotsOf db eid).Pairwise
      (fun a b => a.createdAt < b.createdAt))
    (hc : isLatestCandidate db eid s = true) :
    (snapshotsOf db eid).getLast? = some s ∧
    getLatestSnapshot db eid = some s.data := by
  have hparts := (Bool.and_eq_true _ _).mp hc
  have hmem : s ∈ snapshotsOf db eid := by
    rcases List.contains_iff_exists_mem_beq.mp hparts.1 with ⟨t, ht, hbeq⟩
    rw [eq_of_beq hbeq]
    exact ht
  have hmax : ∀ t ∈ snapshotsOf db eid, t.createdAt ≤ s.createdAt := by
    intro t ht
    have := List.all_eq_true.mp hparts.2 t ht
    simpa using this
  have h1 := pairwise_candidate_getLast _ s hp hmem hmax
  refine ⟨h1, ?_⟩
  unfold getLatestSnapshot
  rw [latestBy_pairwise _ hp, h1]
  rfl

theorem c3_amended_witness :
    (snapshotsOf c3dbW "e1").getLast? = some c3snapC ∧
    getLatestSnapshot c3dbW "e1" = some c3snapC.data :=
  c3_amended c3dbW "e1" c3snapC (by decide) (by decide)

theorem findExec_extend (db : Db) (l : List Execution) (i : String)
    (e : Execution) (h : findExec db i = some e) :
    findExec { db with executions := db.executions ++ l } i = some e := by
  unfold findExec at *
  exact find?_append_some _ _ _ _ h

theorem findExec_extend_fresh (db : Db) (x : Execution) (i : String)
    (hfresh : ∀ y ∈ db.executions, y.id ≠ i) :
    findExec { db with executions := db.executions ++ [x] } i =
      if x.id == i then some x else none := by
  unfold findExec
  rw [find?_append_of_none]
  · cases hx : (x.id == i) <;> simp [List.find?, hx]
  · rw [List.find?_eq_none]
    intro y hy
    simpa using hfresh y hy

/-- Claim C7: replay on an existing Execution and a pipeline stage leaves
the original Execution row, its Snapshots and its Events untouched,
creates a new PENDING Execution on fromAgent whose metadata.replayedFrom
is the original id, and, when an INPUT snapshot for fromAgent exists on
the original, seeds the new Execution with exactly that snapshot's data
(agent fromAgent, type INPUT).  newId is the Prisma-generated id of the
fork, assumed fresh. -/
theorem c7_replay (db : Db) (eid fromAgent newId : String) (now : Nat)
    (e : Execution)
    (h : findExec db eid = some e)
    (hpipe : fromAgent ∈ AGENT_PIPELINE)
    (hfreshE : ∀ x ∈ db.executions, x.id ≠ newId)
    (hfreshS : ∀ s ∈ db.snapshots, s.executionId ≠ newId) :
    (replay db eid fromAgent newId now).2 = Except.ok newId ∧
    findExec (replay db eid fromAgent newId now).1 eid = some e ∧
    snapshotsOf (replay db eid fromAgent newId now).1 eid =
      snapshotsOf db eid ∧
    eventsOf (replay db eid fromAgent newId now).1 eid = eventsOf db eid ∧
    (findExec (replay db eid fromAgent newId now).1 newId).map
        (fun x => (x.status, x.currentAgent)) =
      some (ExecStatus.PENDING, fromAgent) ∧
    (findExec (replay db eid fromAgent newId now).1 newId).map
        (fun x => Obj.get x.metadata "replayedFrom") =
      some (some (JVal.jstr eid)) ∧
    (∀ s, latestBy ((snapshotsOf db eid).filter
        (fun t => t.agentName == fromAgent && t.snapshotType == .INPUT)) =
          some s →
      (snapshotsOf (replay db eid fromAgent newId now).1 newId).map
          (fun t => (t.agentName, t.snapshotType, t.data)) =
        [(fromAgent, SnapshotType.INPUT, s.data)]) := by
  have hmemE : e ∈ db.executions := List.mem_of_find?_eq_some h
  have heid : e.id = eid := by
    have := List.find?_some h
    simpa using this
  have hne : (newId == eid) = false := by
    have hx : e.id ≠ newId := hfreshE e hmemE
    rw [heid] at hx
    simp [Ne.symm hx]
  unfold replay
  rw [h]
  dsimp only
  rw [if_pos hpipe]
  cases hseed : latestBy ((snapshotsOf db eid).filter
      (fun s => s.agentName == fromAgent && s.snapshotType == .INPUT)) with
  | none =>
    refine ⟨rfl, ?_, ?_, ?_, ?_, ?_, ?_⟩
    · rw [findExec_enqueue, findExec_saveEvent]
      exact findExec_extend db _ eid e h
    · unfold snapshotsOf
      rw [snapshots_enqueue, snapshots_saveEvent]
    · unfold eventsOf
      rw [events_enqueue, events_saveEvent]
      rw [List.filter_append]
      simp [hne]
    · rw [findExec_enqueue, findExec_saveEvent,
        findExec_extend_fresh db _ newId hfreshE]
      simp
    · rw [findExec_enqueue, findExec_saveEvent,
        findExec_extend_fresh db _ newId hfreshE]
      simp only [beq_self_eq_true, if_true, Option.map]
      rw [spread_get]
      rfl
    · intro s hs
      exact Option.noConfusion hs
  | some s0 =>
    refine ⟨rfl, ?_, ?_, ?_, ?_, ?_, ?_⟩
    · rw [findExec_enqueue, findExec_saveEvent, findExec_createSnapshot]
      exact findExec_extend db _ eid e h
    · unfold snapshotsOf
      rw [snapshots_enqueue, snapshots_saveEvent, snapshots_createSnapshot]
      rw [List.filter_append]
      simp [hne]
    · unfold eventsOf
      rw [events_enqueue, events_saveEvent, events_createSnapshot]
      rw [List.filter_append]
      simp [hne]
    · rw [findExec_enqueue, findExec_saveEvent, findExec_createSnapshot,
        findExec_extend_fresh db _ newId hfreshE]
      simp
    · rw [findExec_enqueue, findExec_saveEvent, findExec_createSnapshot,
        findExec_extend_fresh db _ newId hfreshE]
      simp only [beq_self_eq_true, if_true, Option.map]
      rw [spread_get]
      rfl
    · intro s hs
      cases hs
      unfold snapshotsOf
      rw [snapshots_enqueue, snapshots_saveEvent, snapshots_createSnapshot]
      rw [List.filter_append]
      have hnil : db.snapshots.filter
          (fun t => t.executionId == newId) = [] := by
        rw [List.filter_eq_nil_iff]
        intro t ht
        simpa using hfreshS t ht
      rw [show ({ db with executions := db.executions ++ [_] } : Db).snapshots
          = db.snapshots from rfl]
      rw [hnil]
      simp

/-- A concrete original execution with one INPUT snapshot for the
duplicate stage, used to instantiate the replay theorem. -/
def c7snap : Snapshot :=
  { id := 0
    executionId := "e1"
    agentName := "duplicate"
    snapshotType := .INPUT
    data := { priority := some "LOW" }
    createdAt := 3 }

def c7db : Db :=
  { executions := [db1row .COMPLETED]
    snapshots := [c7snap]
    events := []
    tasks := []
    jobs := [] }

theorem c7_replay_witness :
    (replay c7db "e1" "duplicate" "e2" 9).2 = Except.ok "e2" ∧
    findExec (replay c7db "e1" "duplicate" "e2" 9).1 "e1" =
      some (db1row .COMPLETED) ∧
    snapshotsOf (replay c7db "e1" "duplicate" "e2" 9).1 "e1" =
      snapshotsOf c7db "e1" ∧
    (snapshotsOf (replay c7db "e1" "duplicate" "e2" 9).1 "e2").map
        (fun t => (t.agentName, t.snapshotType, t.data)) =
      [("duplicate", SnapshotType.INPUT, c7snap.data)] := by
  have hw := c7_replay c7db "e1" "duplicate" "e2" 9 (db1row .COMPLETED)
    rfl (by decide) (by decide) (by decide)
  exact ⟨hw.1, hw.2.1, hw.2.2.1, hw.2.2.2.2.2.2 c7snap (by decide)⟩

/-- The resume target the spec describes: resumeFromStage when given,
otherwise the execution's current stage. -/
def resumeTarget (ra : Option String) (cur : String) : String :=
  match ra with
  | some a => a
  | none => cur

/-- Claim C8: in every resume call on an AWAITING_HUMAN Execution — with
or without an updatedState — the target stage is resumeFromStage when
given and the Execution's currentStage otherwise, the status becomes
PROCESSING, an EXECUTION_RESUMED event is emitted, and one job for the
target stage is dispatched.  When an updatedState is given, additionally
one HUMAN_UPDATE snapshot holding mergeState(latest, update) is written
and a HUMAN_INPUT_RECEIVED event is emitted whose payload carries only
the updated field names (not the values); without one, no snapshot is
written and EXECUTION_RESUMED is the only event added. -/
theorem c8_resume (db : Db) (eid : String) (us : Option RfqState)
    (ra : Option String) (now : Nat) (e : Execution)
    (h : findExec db eid = some e)
    (hst : e.status = .AWAITING_HUMAN)
    (hra : ∀ a, ra = some a → a ∈ AGENT_PIPELINE)
    (hjob : ∀ j ∈ db.jobs,
      j.jobId ≠ jobKey eid (resumeTarget ra e.currentAgent) now) :
    (resume db eid us ra now).2 = Except.ok () ∧
    (findExec (resume db eid us ra now).1 eid).map
        (fun x => (x.status, x.currentAgent)) =
      some (ExecStatus.PROCESSING, resumeTarget ra e.currentAgent) ∧
    (resume db eid us ra now).1.jobs =
      db.jobs ++ [QJob.mk (jobKey eid (resumeTarget ra e.currentAgent) now)
        (resumeTarget ra e.currentAgent) eid] ∧
    (∀ upd, us = some upd →
      (resume db eid us ra now).1.snapshots.map
          (fun s => (s.executionId, s.agentName, s.snapshotType, s.data)) =
        db.snapshots.map
          (fun s => (s.executionId, s.agentName, s.snapshotType, s.data)) ++
          [(eid, "human", SnapshotType.HUMAN_UPDATE,
            mergeState ((getLatestSnapshot db eid).getD {}) upd)] ∧
      (resume db eid us ra now).1.events.map
          (fun v => (v.executionId, v.eventType, v.eventData)) =
        db.events.map (fun v => (v.executionId, v.eventType, v.eventData)) ++
          [(eid, "HUMAN_INPUT_RECEIVED",
            [("updatedFields", JVal.jstrs upd.keys)]),
           (eid, "EXECUTION_RESUMED",
            [("resumedFrom",
              JVal.jstr (resumeTarget ra e.currentAgent))])]) ∧
    (us = none →
      (resume db eid us ra now).1.snapshots = db.snapshots ∧
      (resume db eid us ra now).1.events.map
          (fun v => (v.executionId, v.eventType, v.eventData)) =
        db.events.map (fun v => (v.executionId, v.eventType, v.eventData)) ++
          [(eid, "EXECUTION_RESUMED",
            [("resumedFrom",
              JVal.jstr (resumeTarget ra e.currentAgent))])]) := by
  cases us with
  | some upd =>
    cases ra with
    | none =>
      unfold resume
      rw [h]
      dsimp only [resumeTarget] at hjob ⊢
      rw [if_pos hst]
      refine ⟨rfl, ?_, ?_, ?_, ?_⟩
      · rw [findExec_enqueue, findExec_saveEvent]
        exact findExec_setStatusAgent_proj _ eid ExecStatus.PROCESSING
          e.currentAgent e
          (by rw [findExec_saveEvent, findExec_createSnapshot]; exact h)
      · exact jobs_enqueue_fresh _ _ _ _ hjob
      · intro upd2 hupd
        cases hupd
        refine ⟨?_, ?_⟩
        · simp only [snapshots_enqueue, snapshots_saveEvent,
            snapshots_updateExecRow, snapshots_createSnapshot]
          simp
        · simp only [events_enqueue, events_saveEvent,
            events_updateExecRow, events_createSnapshot]
          simp
      · intro hnone
        exact Option.noConfusion hnone
    | some a =>
      have hmem : a ∈ AGENT_PIPELINE := hra a rfl
      have hcases : a = "intake" ∨ a = "missing-info" ∨ a = "duplicate" ∨
          a = "prioritization" ∨ a = "mto" ∨ a = "auto-quote" := by
        simpa [AGENT_PIPELINE] using hmem
      have hne : ¬(a = "") := by
        rcases hcases with rfl | rfl | rfl | rfl | rfl | rfl <;> decide
      unfold resume
      rw [h]
      dsimp only [resumeTarget] at hjob ⊢
      rw [if_pos hst, if_neg hne]
      refine ⟨rfl, ?_, ?_, ?_, ?_⟩
      · rw [findExec_enqueue, findExec_saveEvent]
        exact findExec_setStatusAgent_proj _ eid ExecStatus.PROCESSING
          a e (by rw [findExec_saveEvent, findExec_createSnapshot]; exact h)
      · exact jobs_enqueue_fresh _ _ _ _ hjob
      · intro upd2 hupd
        cases hupd
        refine ⟨?_, ?_⟩
        · simp only [snapshots_enqueue, snapshots_saveEvent,
            snapshots_updateExecRow, snapshots_createSnapshot]
          simp
        · simp only [events_enqueue, events_saveEvent,
            events_updateExecRow, events_createSnapshot]
          simp
      · intro hnone
        exact Option.noConfusion hnone
  | none =>
    cases ra with
    | none =>
      unfold resume
      rw [h]
      dsimp only [resumeTarget] at hjob ⊢
      rw [if_pos hst]
      refine ⟨rfl, ?_, ?_, ?_, ?_⟩
      · rw [findExec_enqueue, findExec_saveEvent]
        exact findExec_setStatusAgent_proj _ eid ExecStatus.PROCESSING
          e.currentAgent e h
      · exact jobs_enqueue_fresh _ _ _ _ hjob
      · intro upd2 hupd
        exact Option.noConfusion hupd
      · intro _
        refine ⟨?_, ?_⟩
        · simp only [snapshots_enqueue, snapshots_saveEvent,
            snapshots_updateExecRow]
        · simp only [events_enqueue, events_saveEvent,
            events_updateExecRow]
          simp
    | some a =>
      have hmem : a ∈ AGENT_PIPELINE := hra a rfl
      have hcases : a = "intake" ∨ a = "missing-info" ∨ a = "duplicate" ∨
          a = "prioritization" ∨ a = "mto" ∨ a = "auto-quote" := by
        simpa [AGENT_PIPELINE] using hmem
      have hne : ¬(a = "") := by
        rcases hcases with rfl | rfl | rfl | rfl | rfl | rfl <;> decide
      unfold resume
      rw [h]
      dsimp only [resumeTarget] at hjob ⊢
      rw [if_pos hst, if_neg hne]
      refine ⟨rfl, ?_, ?_, ?_, ?_⟩
      · rw [findExec_enqueue, findExec_saveEvent]
        exact findExec_setStatusAgent_proj _ eid ExecStatus.PROCESSING
          a e h
      · exact jobs_enqueue_fresh _ _ _ _ hjob
      · intro upd2 hupd
        exact Option.noConfusion hupd
      · intro _
        refine ⟨?_, ?_⟩
        · simp only [snapshots_enqueue, snapshots_saveEvent,
            snapshots_updateExecRow]
        · simp only [events_enqueue, events_saveEvent,
            events_updateExecRow]
          simp

theorem c8_resume_witness :
    (resume (db1exec .AWAITING_HUMAN) "e1" (some { priority := some "HIGH" })
        (some "duplicate") 4).2 = Except.ok () ∧
    (findExec (resume (db1exec .AWAITING_HUMAN) "e1"
          (some { priority := some "HIGH" }) (some "duplicate") 4).1
        "e1").map (fun x => (x.status, x.currentAgent)) =
      some (ExecStatus.PROCESSING,
        resumeTarget (some "duplicate") (db1row .AWAITING_HUMAN).currentAgent) ∧
    (resume (db1exec .AWAITING_HUMAN) "e1" (some { priority := some "HIGH" })
        (some "duplicate") 4).1.jobs =
      (db1exec .AWAITING_HUMAN).jobs ++
        [QJob.mk
          (jobKey "e1"
            (resumeTarget (some "duplicate")
              (db1row .AWAITING_HUMAN).currentAgent) 4)
          (resumeTarget (some "duplicate")
            (db1row .AWAITING_HUMAN).currentAgent) "e1"] ∧
    (resume (db1exec .AWAITING_HUMAN) "e1" (some { priority := some "HIGH" })
        (some "duplicate") 4).1.events.map
        (fun v => (v.executionId, v.eventType, v.eventData)) =
      (db1exec .AWAITING_HUMAN).events.map
        (fun v => (v.executionId, v.eventType, v.eventData)) ++
        [("e1", "HUMAN_INPUT_RECEIVED",
          [("updatedFields",
            JVal.jstrs (RfqState.keys { priority := some "HIGH" }))]),
         ("e1", "EXECUTION_RESUMED",
          [("resumedFrom",
            JVal.jstr (resumeTarget (some "duplicate")
              (db1row .AWAITING_HUMAN).currentAgent))])] ∧
    (resume (db1exec .AWAITING_HUMAN) "e1" none none 4).2 = Except.ok () ∧
    (findExec (resume (db1exec .AWAITING_HUMAN) "e1" none none 4).1
        "e1").map (fun x => (x.status, x.currentAgent)) =
      some (ExecStatus.PROCESSING,
        resumeTarget none (db1row .AWAITING_HUMAN).currentAgent) ∧
    (resume (db1exec .AWAITING_HUMAN) "e1" none none 4).1.snapshots =
      (db1exec .AWAITING_HUMAN).snapshots ∧
    (resume (db1exec .AWAITING_HUMAN) "e1" none none 4).1.events.map
        (fun v => (v.executionId, v.eventType, v.eventData)) =
      (db1exec .AWAITING_HUMAN).events.map
        (fun v => (v.executionId, v.eventType, v.eventData)) ++
        [("e1", "EXECUTION_RESUMED",
          [("resumedFrom",
            JVal.jstr (resumeTarget none
              (db1row .AWAITING_HUMAN).currentAgent))])] := by
  have hwS := c8_resume (db1exec .AWAITING_HUMAN) "e1"
    (some { priority := some "HIGH" }) (some "duplicate") 4
    (db1row .AWAITING_HUMAN) rfl rfl
    (fun a ha => by cases ha; decide)
    (fun j hj => absurd hj (List.not_mem_nil j))
  have hwN := c8_resume (db1exec .AWAITING_HUMAN) "e1"
    none none 4 (db1row .AWAITING_HUMAN) rfl rfl
    (fun a ha => Option.noConfusion ha)
    (fun j hj => absurd hj (List.not_mem_nil j))
  exact ⟨hwS.1, hwS.2.1, hwS.2.2.1, (hwS.2.2.2.1 _ rfl).2,
    hwN.1, hwN.2.1, (hwN.2.2.2.2 rfl).1, (hwN.2.2.2.2 rfl).2⟩

@[simp] theorem findExec_set_tasks (db : Db) (t : List AgentTask)
    (i : String) :
    findExec { db with tasks := t } i = findExec db i := rfl

@[simp] theorem tasks_set_tasks (db : Db) (t : List AgentTask) :
    ({ db with tasks := t } : Db).tasks = t := rfl

@[simp] theorem snapshots_set_tasks (db : Db) (t : List AgentTask) :
    ({ db with tasks := t } : Db).snapshots = db.snapshots := rfl

@[simp] theorem events_set_tasks (db : Db) (t : List AgentTask) :
    ({ db with tasks := t } : Db).events = db.events := rfl

@[simp] theorem jobs_set_tasks (db : Db) (t : List AgentTask) :
    ({ db with tasks := t } : Db).jobs = db.jobs := rfl

theorem findExec_proj_through {α : Type} (db : Db) (i : String)
    (f : Execution → Execution) (hf : ∀ x, (f x).id = x.id)
    (g : Execution → α) (e : Execution) (v : α)
    (h : findExec db i = some e) (hv : g (f e) = v) :
    (findExec (updateExecRow db i f) i).map g = some v := by
  rw [findExec_updateExecRow db i f hf, h]
  simpa using hv

/-- The agent result used for the worker counterexamples and witnesses. -/
def c1res : AgentResult :=
  { success := true
    outputState := {}
    events := []
    nextAction := .CONTINUE "duplicate"
    durationMs := none
    tokenUsage := none
    costUsd := none }

/-- Claim C1 counterexample: a job delivered for an Execution whose status
is COMPLETED (terminal, hence not PENDING/PROCESSING) is NOT treated as
stale: the worker runs in full, creating an AgentTask and a Snapshot and
flipping the terminal Execution back to PROCESSING.  The handler has no
idempotency guard. -/
theorem c1_counterexample :
    (processJob (db1exec .COMPLETED) "intake" "e1" 0 c1res 10).1.tasks.length
      = 1 ∧
    (db1exec .COMPLETED).tasks.length = 0 ∧
    (processJob (db1exec .COMPLETED) "intake" "e1" 0
        c1res 10).1.snapshots.length = 1 ∧
    (findExec (processJob (db1exec .COMPLETED) "intake" "e1" 0
        c1res 10).1 "e1").map Execution.status =
      some ExecStatus.PROCESSING := by
  refine ⟨rfl, rfl, rfl, rfl⟩

/-- Claim C1 (amended): the per-stage worker has no idempotency guard: for
every existing Execution, whatever its status (terminal included) and
however its currentAgent compares to the job's stage, the job handler runs
in full — it creates exactly one AgentTask and one Snapshot and leaves the
Execution's status determined solely by the agent's next action
(PROCESSING after CONTINUE/SKIP, AWAITING_HUMAN, COMPLETED, FAILED). -/
theorem c1_amended (db : Db) (agentName executionId : String)
    (attemptsMade : Nat) (result : AgentResult) (now : Nat) (e : Execution)
    (h : findExec db executionId = some e) :
    (processJob db agentName executionId attemptsMade result
        now).1.tasks.length = db.tasks.length + 1 ∧
    (processJob db agentName executionId attemptsMade result
        now).1.snapshots.length = db.snapshots.length + 1 ∧
    (findExec (processJob db agentName executionId attemptsMade result
        now).1 executionId).map Execution.status =
      some (nextStatus result.nextAction) := by
  unfold processJob
  rw [h]
  dsimp only
  cases hna : result.nextAction <;>
  · refine ⟨?_, ?_, ?_⟩
    · simp [List.length_append]
    · simp [List.length_append]
    · simp only [findExec_enqueue, findExec_saveEvent]
      refine findExec_proj_through _ executionId _ ?_
        Execution.status ({ e with status := ExecStatus.PROCESSING }) _
        ?_ ?_
      · intro x
        rfl
      · simp only [findExec_updateTaskRow, findExec_saveManyEvents,
          findExec_createSnapshot, findExec_set_tasks]
        rw [findExec_updateExecRow db executionId
          (fun x => { x with status := ExecStatus.PROCESSING })
          (fun x => rfl), h]
        rfl
      · rfl

theorem c1_amended_witness :
    (processJob (db1exec .CANCELLED) "mto" "e1" 2 c1res
        11).1.tasks.length = (db1exec .CANCELLED).tasks.length + 1 ∧
    (processJob (db1exec .CANCELLED) "mto" "e1" 2 c1res
        11).1.snapshots.length = (db1exec .CANCELLED).snapshots.length + 1 ∧
    (findExec (processJob (db1exec .CANCELLED) "mto" "e1" 2 c1res
        11).1 "e1").map Execution.status =
      some (nextStatus c1res.nextAction) :=
  c1_amended (db1exec .CANCELLED) "mto" "e1" 2 c1res 11
    (db1row .CANCELLED) rfl

/-- The failing agent result used for the completedAt claims. -/
def c2res : AgentResult :=
  { success := false
    outputState := {}
    events := []
    nextAction := .FAIL "boom"
    durationMs := none
    tokenUsage := none
    costUsd := none }

/-- Claim C2 counterexample: when the agent returns a FAIL next action,
the worker sets the Execution's status to FAILED without setting
completedAt — the FAILED row keeps completedAt null. -/
theorem c2_counterexample :
    (findExec (processJob (db1exec .PROCESSING) "intake" "e1" 0 c2res
        10).1 "e1").map (fun x => (x.status, x.completedAt)) =
      some (ExecStatus.FAILED, none) := by
  rfl

/-- Claim C2 (amended): the worker's COMPLETE branch, updateStatus (for
each terminal status) and cancel all set completedAt to the current time;
the worker's FAIL branch, however, sets status FAILED while leaving
completedAt exactly as it was (null for a never-completed Execution). -/
theorem c2_amended (db : Db) (executionId agentName : String)
    (attemptsMade now : Nat) (result : AgentResult) (st : ExecStatus)
    (md : Option Obj) (e : Execution)
    (h : findExec db executionId = some e) :
    (result.nextAction = .COMPLETE →
      (findExec (processJob db agentName executionId attemptsMade result
          now).1 executionId).map Execution.completedAt =
        some (some now)) ∧
    (isTerminal st = true →
      (findExec (updateStatus db executionId st md now)
          executionId).map Execution.completedAt = some (some now)) ∧
    (e.status ≠ .COMPLETED → e.status ≠ .CANCELLED →
      (findExec (cancel db executionId now).1 executionId).map
        Execution.completedAt = some (some now)) ∧
    ((∃ err, result.nextAction = .FAIL err) →
      (findExec (processJob db agentName executionId attemptsMade result
          now).1 executionId).map Execution.completedAt =
        some e.completedAt) := by
  refine ⟨?_, ?_, ?_, ?_⟩
  · intro hna
    unfold processJob
    rw [h]
    dsimp only
    rw [hna]
    dsimp only
    rw [findExec_saveEvent]
    refine findExec_proj_through _ executionId _ ?_
      Execution.completedAt ({ e with status := ExecStatus.PROCESSING }) _
      ?_ ?_
    · intro x
      rfl
    · simp only [findExec_updateTaskRow, findExec_saveManyEvents,
        findExec_createSnapshot, findExec_set_tasks]
      rw [findExec_updateExecRow db executionId
        (fun x => { x with status := ExecStatus.PROCESSING })
        (fun x => rfl), h]
      rfl
    · rfl
  · intro hterm
    unfold updateStatus
    refine findExec_proj_through _ executionId _ ?_ Execution.completedAt e
      (some now) h ?_
    · intro x
      cases md <;> simp [hterm]
    · cases md <;> simp [hterm]
  · intro hc1 hc2
    have hterm : ¬(e.status = .COMPLETED ∨ e.status = .CANCELLED) := by
      rintro (hx | hx)
      · exact hc1 hx
      · exact hc2 hx
    unfold cancel
    rw [h]
    dsimp only
    rw [if_neg hterm]
    dsimp only
    rw [findExec_saveEvent]
    refine findExec_proj_through _ executionId _ ?_
      Execution.completedAt e (some now) h ?_
    · intro x
      rfl
    · rfl
  · rintro ⟨err, hna⟩
    unfold processJob
    rw [h]
    dsimp only
    rw [hna]
    dsimp only
    rw [findExec_saveEvent]
    refine findExec_proj_through _ executionId _ ?_
      Execution.completedAt ({ e with status := ExecStatus.PROCESSING }) _
      ?_ ?_
    · intro x
      rfl
    · simp only [findExec_updateTaskRow, findExec_saveManyEvents,
        findExec_createSnapshot, findExec_set_tasks]
      rw [findExec_updateExecRow db executionId
        (fun x => { x with status := ExecStatus.PROCESSING })
        (fun x => rfl), h]
      rfl
    · rfl

theorem c2_amended_witness :
    ((findExec (updateStatus (db1exec .PROCESSING) "e1"
        ExecStatus.FAILED none 6) "e1").map Execution.completedAt =
      some (some 6)) ∧
    ((findExec (cancel (db1exec .PROCESSING) "e1" 6).1 "e1").map
      Execution.completedAt = some (some 6)) ∧
    ((findExec (processJob (db1exec .PROCESSING) "intake" "e1" 0 c2res
        6).1 "e1").map Execution.completedAt =
      some (db1row .PROCESSING).completedAt) := by
  have hw := c2_amended (db1exec .PROCESSING) "e1" "intake" 0 6 c2res
    ExecStatus.FAILED none (db1row .PROCESSING) rfl
  exact ⟨hw.2.1 rfl, hw.2.2.1 (by decide) (by decide),
    hw.2.2.2 ⟨"boom", rfl⟩⟩

end AgentOrch
